import Mathlib

/-!
Verification of the client-side resilience primitives of the CSP-Scout-UI
dashboard: the sliding-window rate limiter, the input/HTML sanitizers, the
retry wrapper around fetch, the URL-keyed response cache, and the statistics
aggregation. Each definition is a shallow embedding of the corresponding
TypeScript function; timestamps are integers (milliseconds), strings are
Lean strings over their character lists, and the nondeterministic
environment (the clock and the network) is passed in explicitly.
-/

namespace CSPScout

/-- Rate-limit configuration: MAX_REQUESTS and WINDOW_MS from
API_CONFIG.SECURITY.RATE_LIMIT (src/config.ts). -/
structure RateCfg where
  maxRequests : Nat
  windowMs : Int
  deriving Repr

/-- The process-wide requestCounts map (src/config.ts), one timestamp list
per client id; a client id with no entry maps to the empty list, matching
the read requestCounts.get(clientId) || []. -/
def RLState : Type := String → List Int

/-- The empty requestCounts map. -/
def emptyRL : RLState := fun _ => []

/-- checkRateLimit from src/config.ts lines 154-175.  now is the value of
Date.now() at the call.  Filters the stored timestamps for the client to
those with now - timestamp < windowMs; when the kept count has reached
maxRequests it returns false and leaves the map untouched (the early
return skips requestCounts.set); otherwise it appends now, stores the
updated list for this client, and returns true. -/
def checkRateLimit (cfg : RateCfg) (clientId : String) (now : Int)
    (st : RLState) : Bool × RLState :=
  let timestamps := st clientId
  let kept := timestamps.filter (fun t => decide (now - t < cfg.windowMs))
  if kept.length ≥ cfg.maxRequests then
    (false, st)
  else
    (true, fun c => if c = clientId then kept ++ [now] else st c)

/-- Runs checkRateLimit once per entry of times (in order, threading the
map), collecting the returned booleans. -/
def runCalls (cfg : RateCfg) (clientId : String) (times : List Int)
    (st : RLState) : List Bool × RLState :=
  match times with
  | [] => ([], st)
  | t :: ts =>
    let r := checkRateLimit cfg clientId t st
    let rest := runCalls cfg clientId ts r.2
    (r.1 :: rest.1, rest.2)

/-- The four characters the sanitizers act on: less-than, greater-than,
double quote (code point 34) and single quote (code point 39), matching
the regular expression character class in sanitizeInput. -/
def isDangerousChar (c : Char) : Bool :=
  c = '<' || c = '>' || c = Char.ofNat 39 || c = Char.ofNat 34

/-- sanitizeInput from src/config.ts lines 137-140: the global replace of
the class [<>...quotes] by the empty string deletes exactly those
characters and keeps every other character in order. -/
def sanitizeInput (s : String) : String :=
  String.mk (s.data.filter (fun c => !(isDangerousChar c)))

/-- One global single-character replace: every occurrence of c becomes the
string r, every other character stays, in order (the model of
String.prototype.replace with a one-character global pattern). -/
def replaceChar (c : Char) (r : List Char) (l : List Char) : List Char :=
  l.flatMap (fun x => if x = c then r else [x])

/-- The entity texts used by sanitizeHtml. -/
def ltEntity : List Char := ("&lt;").data
def gtEntity : List Char := ("&gt;").data
def quotEntity : List Char := ("&quot;").data
def aposEntity : List Char := ("&#039;").data

/-- sanitizeHtml from src/config.ts lines 142-149: four chained global
replaces, in source order: less-than, then greater-than, then double
quote, then single quote. -/
def sanitizeHtml (s : String) : String :=
  String.mk
    (replaceChar (Char.ofNat 39) aposEntity
      (replaceChar (Char.ofNat 34) quotEntity
        (replaceChar '>' gtEntity
          (replaceChar '<' ltEntity s.data))))

/-- Per-character description of the composite escape: each of the four
dangerous characters maps to its entity, anything else to itself. -/
def escapeChar (x : Char) : List Char :=
  if x = '<' then ltEntity
  else if x = '>' then gtEntity
  else if x = Char.ofNat 34 then quotEntity
  else if x = Char.ofNat 39 then aposEntity
  else [x]

/-- The error taxonomy of the resilient fetch layer
(CSPReportsTable.svelte): client-side throttling, transport failure or
abort/timeout, Content-Type mismatch, and non-2xx HTTP status. -/
inductive FetchError where
  | rateLimited
  | networkError
  | invalidContentType
  | httpError (status : Nat)
  deriving Repr, DecidableEq

/-- An HTTP response as the fetch wrapper inspects it: the Content-Type
header (none when absent), the status code, and the parsed JSON body
(abstracted to a number, since the code treats it as opaque data). -/
structure HttpResponse where
  contentType : Option String
  status : Nat
  body : Nat
  deriving Repr, DecidableEq

/-- Outcome of one underlying fetch(...) call: the promise rejects
(network failure, or the timeout controller aborts), or it resolves with
a response. -/
inductive NetOut where
  | failure
  | success (r : HttpResponse)
  deriving Repr, DecidableEq

/-- The Content-Type validation contentType?.includes(&quot;application/json&quot;):
true exactly when the header text contains that substring. -/
def containsJson (s : String) : Bool :=
  decide (("application/json").data <:+: s.data)

/-- The body of the try block after fetch resolves (lines 45-71 of the
component script): a rejected fetch is a network error; otherwise a
missing or non-JSON Content-Type header fails before the status check,
a non-2xx status (response.ok is status 200-299) fails with the status,
and otherwise the response body is returned. -/
def evalAttempt : NetOut → Except FetchError Nat
  | .failure => .error .networkError
  | .success r =>
    match r.contentType with
    | none => .error .invalidContentType
    | some ct =>
      if containsJson ct then
        if 200 ≤ r.status ∧ r.status ≤ 299 then .ok r.body
        else .error (.httpError r.status)
      else .error .invalidContentType

/-- The environment of one fetchWithRetry run: timeAt k is Date.now() at
the k-th rate-limit check of the run, outcomeAt k the outcome of the k-th
attempted network call. -/
structure FetchEnv where
  timeAt : Nat → Int
  outcomeAt : Nat → NetOut

/-- Retry configuration: API_CONFIG.RETRY_CONFIG.MAX_RETRIES. -/
structure RetryCfg where
  MAX_RETRIES : Nat
  deriving Repr

/-- What one fetchWithRetry call produces: its result, the rate-limiter
map afterwards, how many times it consulted the limiter, and how many
network requests it issued. -/
structure RunResult where
  result : Except FetchError Nat
  rl : RLState
  gateChecks : Nat
  netCalls : Nat

/-- The recursion of fetchWithRetry (CSPReportsTable.svelte lines
329-372), indexed by the number of retries still allowed
(remaining = MAX_RETRIES - retryCount).  Each level first consults
checkRateLimit; a denial throws outside the try block, so it ends the
whole call at once (in the recursive case the throw happens inside the
callers catch block and is not caught again) with no network request.
An allowed level issues one network call; a failure of the try block is
retried (after the fixed RETRY_DELAY_MS pause) while retries remain,
else propagated. -/
def fetchAux (cfg : RateCfg) (env : FetchEnv) (clientId : String) :
    Nat → Nat → RLState → RunResult
  | remaining, k, rl =>
    let gate := checkRateLimit cfg clientId (env.timeAt k) rl
    if gate.1 then
      match evalAttempt (env.outcomeAt k) with
      | .ok data => ⟨.ok data, gate.2, 1, 1⟩
      | .error e =>
        match remaining with
        | 0 => ⟨.error e, gate.2, 1, 1⟩
        | r + 1 =>
          let rest := fetchAux cfg env clientId r (k + 1) gate.2
          ⟨rest.result, rest.rl, rest.gateChecks + 1, rest.netCalls + 1⟩
    else ⟨.error .rateLimited, gate.2, 1, 0⟩

/-- fetchWithRetry(url, retryCount): with retryCount attempts already
consumed, MAX_RETRIES - retryCount retries are still allowed. -/
def fetchWithRetry (cfg : RateCfg) (rcfg : RetryCfg) (env : FetchEnv)
    (clientId : String) (retryCount : Nat) (rl : RLState) : RunResult :=
  fetchAux cfg env clientId (rcfg.MAX_RETRIES - retryCount) 0 rl

/-- Cache configuration: API_CONFIG.CACHE_CONFIG. -/
structure CacheCfg where
  ENABLED : Bool
  DURATION_MS : Int
  deriving Repr

/-- The component-local cache map, URL to (payload, storedAt). -/
def Cache : Type := String → Option (Nat × Int)

/-- The empty cache map. -/
def emptyCache : Cache := fun _ => none

/-- What one fetchWithCache call produces. -/
structure CacheRunResult where
  result : Except FetchError Nat
  cache : Cache
  rl : RLState
  netCalls : Nat

/-- The body of fetchWithCache past the cache check (lines 94-103 of the
component script): run the resilient fetch with retryCount 0, parse the
body, and on success store it under the url with the store-time
Date.now() (nowStore) when caching is enabled; a failure propagates and
stores nothing. -/
def fetchFresh (ccfg : CacheCfg) (cfg : RateCfg) (rcfg : RetryCfg)
    (env : FetchEnv) (clientId url : String) (nowStore : Int)
    (cache : Cache) (rl : RLState) : CacheRunResult :=
  let run := fetchWithRetry cfg rcfg env clientId 0 rl
  match run.result with
  | .ok data =>
    ⟨.ok data,
     if ccfg.ENABLED then
       fun u => if u = url then some (data, nowStore) else cache u
     else cache,
     run.rl, run.netCalls⟩
  | .error e => ⟨.error e, cache, run.rl, run.netCalls⟩

/-- fetchWithCache (CSPReportsTable.svelte lines 374-395): when caching
is enabled and the map holds an entry for the url whose age
now - storedAt is under DURATION_MS, return its payload with no network
activity; otherwise fall through to the fetch-and-store path.  now is
Date.now() at the freshness check, nowStore at the store. -/
def fetchWithCache (ccfg : CacheCfg) (cfg : RateCfg) (rcfg : RetryCfg)
    (env : FetchEnv) (clientId url : String) (now nowStore : Int)
    (cache : Cache) (rl : RLState) : CacheRunResult :=
  if ccfg.ENABLED then
    match cache url with
    | some (data, ts) =>
      if now - ts < ccfg.DURATION_MS then ⟨.ok data, cache, rl, 0⟩
      else fetchFresh ccfg cfg rcfg env clientId url nowStore cache rl
    | none => fetchFresh ccfg cfg rcfg env clientId url nowStore cache rl
  else fetchFresh ccfg cfg rcfg env clientId url nowStore cache rl

/-- The report fields the statistics pass reads (the Report interface of
the component). -/
structure ReportFields where
  useragent : String
  clientip : String
  violateddirective : String
  referrer : String
  blockeduri : String
  deriving Repr, DecidableEq

/-- A fetched report: remote id plus fields. -/
structure Report where
  id : String
  report : ReportFields
  deriving Repr, DecidableEq

/-- What the external user-agent parser returns for one user-agent
string: optional OS name/version and browser name/version (modelled as an
abstract collaborator, per the UAParser usage). -/
structure UAResult where
  osName : Option String
  osVersion : Option String
  browserName : Option String
  browserVersion : Option String

/-- The JavaScript expression (x || d) for an optional string: d when x
is absent or empty (both falsy), else x. -/
def jsOr (x : Option String) (d : String) : String :=
  match x with
  | none => d
  | some s => if s = "" then d else s

/-- String.prototype.trim: drop leading and trailing whitespace. -/
def trimStr (s : String) : String :=
  String.mk
    (((s.data.dropWhile Char.isWhitespace).reverse.dropWhile
        Char.isWhitespace).reverse)

/-- The OS grouping key built from a parse result:
sanitizeInput of (result.os.name || Unknown) + space + (result.os.version
or empty), trimmed. -/
def osKey (res : UAResult) : String :=
  sanitizeInput (trimStr (jsOr res.osName "Unknown" ++ " " ++ jsOr res.osVersion ""))

/-- The browser grouping key, built the same way from result.browser. -/
def browserKey (res : UAResult) : String :=
  sanitizeInput
    (trimStr (jsOr res.browserName "Unknown" ++ " " ++ jsOr res.browserVersion ""))

/-- One counts.set(key, (counts.get(key) || 0) + 1) on an
insertion-ordered map (a JavaScript Map keeps insertion order): an
existing key has its count bumped in place, a new key is appended with
count 1. -/
def bump (m : List (String × Nat)) (k : String) : List (String × Nat) :=
  if m.any (fun p => p.1 = k) then
    m.map (fun p => if p.1 = k then (p.1, p.2 + 1) else p)
  else m ++ [(k, 1)]

/-- The frequency map of a key sequence: every key bumped in order into
an initially empty map. -/
def freqList (keys : List String) : List (String × Nat) :=
  keys.foldl bump []

/-- The count stored for a key in a frequency map: the first entry for
the key, 0 when absent (counts.get(key) || 0). -/
def lookupCount (m : List (String × Nat)) (k : String) : Nat :=
  match m with
  | [] => 0
  | p :: rest => if p.1 = k then p.2 else lookupCount rest k

/-- Descending order on counts, the comparator (a, b) =&gt; b.count - a.count. -/
def countGe (a b : String × Nat) : Prop := b.2 ≤ a.2

instance : DecidableRel countGe := fun a b => Nat.decLe b.2 a.2

instance : IsTotal (String × Nat) countGe := ⟨fun a b => Nat.le_total b.2 a.2⟩

instance : IsTrans (String × Nat) countGe :=
  ⟨fun _ _ _ h h2 => Nat.le_trans h2 h⟩

/-- Array.from(map.entries()).sort(descending by count).slice(0, 10). -/
def topTen (m : List (String × Nat)) : List (String × Nat) :=
  (List.insertionSort countGe m).take 10

/-- The seven insertion-ordered count maps the single forEach pass of
calculateStatistics maintains. -/
structure StatMaps where
  ua : List (String × Nat)
  ips : List (String × Nat)
  dirs : List (String × Nat)
  refs : List (String × Nat)
  uris : List (String × Nat)
  os : List (String × Nat)
  browsers : List (String × Nat)

/-- The empty maps before the pass. -/
def emptyStatMaps : StatMaps := ⟨[], [], [], [], [], [], []⟩

/-- The referrer key of a report: the code evaluates
report.report.referrer ? sanitizeInput(report.report.referrer) : empty,
so an absent/empty referrer stays empty. -/
def refKey (r : Report) : String :=
  if r.report.referrer = "" then "" else sanitizeInput r.report.referrer

/-- The body of reports.forEach in calculateStatistics (lines 127-162 of
the statistics component): sanitize each field, bump the five per-field
maps (the referrer only when its key is nonempty, matching the truthiness
guard), and bump the OS and browser maps under the keys derived from
parsing the sanitized user agent. -/
def statStep (parse : String → UAResult) (m : StatMaps) (r : Report) :
    StatMaps :=
  let ua := sanitizeInput r.report.useragent
  let ip := sanitizeInput r.report.clientip
  let directive := sanitizeInput r.report.violateddirective
  let referrer := refKey r
  let uri := sanitizeInput r.report.blockeduri
  let res := parse ua
  { ua := bump m.ua ua
    ips := bump m.ips ip
    dirs := bump m.dirs directive
    refs := if referrer = "" then m.refs else bump m.refs referrer
    uris := bump m.uris uri
    os := bump m.os (osKey res)
    browsers := bump m.browsers (browserKey res) }

/-- The seven top-ten tables the statistics view renders. -/
structure Stats where
  topUserAgents : List (String × Nat)
  topIPs : List (String × Nat)
  topViolatedDirectives : List (String × Nat)
  topReferrers : List (String × Nat)
  topBlockedURIs : List (String × Nat)
  topOS : List (String × Nat)
  topBrowsers : List (String × Nat)

/-- calculateStatistics (lines 118-201 of the statistics component): one
forEach pass accumulating the seven count maps, then each map is listed,
sorted by descending count, and cut to its first 10 entries. -/
def calculateStatistics (parse : String → UAResult) (reports : List Report) :
    Stats :=
  let m := reports.foldl (statStep parse) emptyStatMaps
  ⟨topTen m.ua, topTen m.ips, topTen m.dirs, topTen m.refs, topTen m.uris,
   topTen m.os, topTen m.browsers⟩

/-! Rate limiter: claims C1, C2, C10. -/

/-- Branch lemma: when the kept (in-window) timestamps have reached
maxRequests, checkRateLimit returns false and the map is untouched. -/
lemma checkRateLimit_denied {cfg : RateCfg} {c : String} {now : Int}
    {st : RLState}
    (h : ((st c).filter (fun t => decide (now - t < cfg.windowMs))).length ≥
      cfg.maxRequests) :
    checkRateLimit cfg c now st = (false, st) := by
  simp only [checkRateLimit]
  rw [if_pos h]

/-- Branch lemma: under the limit, checkRateLimit returns true and stores
the kept timestamps with now appended for this client only. -/
lemma checkRateLimit_allowed {cfg : RateCfg} {c : String} {now : Int}
    {st : RLState}
    (h : ¬ ((st c).filter (fun t => decide (now - t < cfg.windowMs))).length ≥
      cfg.maxRequests) :
    checkRateLimit cfg c now st =
      (true, fun x => if x = c then
        (st c).filter (fun t => decide (now - t < cfg.windowMs)) ++ [now]
      else st x) := by
  simp only [checkRateLimit]
  rw [if_neg h]

/-- C1: every call to checkRateLimit filters the stored timestamps of the
client to those with now - timestamp < windowMs, returns false without
recording now when the kept count is at least maxRequests, and otherwise
appends now, stores the updated sequence for the client, and returns
true; moreover with maxRequests 3 and windowMs 1000, calls at times 0,
100, 200 return true, a fourth call at 300 (inside the window) returns
false, and a call at 1301 (past the window) returns true again. -/
theorem checkRateLimit_spec :
    (∀ (cfg : RateCfg) (c : String) (now : Int) (st : RLState),
      (((st c).filter (fun t => decide (now - t < cfg.windowMs))).length ≥
          cfg.maxRequests →
        checkRateLimit cfg c now st = (false, st)) ∧
      (((st c).filter (fun t => decide (now - t < cfg.windowMs))).length <
          cfg.maxRequests →
        checkRateLimit cfg c now st =
          (true, fun x => if x = c then
            (st c).filter (fun t => decide (now - t < cfg.windowMs)) ++ [now]
          else st x))) ∧
    (runCalls ⟨3, 1000⟩ "client" [0, 100, 200, 300, 1301] emptyRL).1 =
      [true, true, true, false, true] := by
  refine ⟨fun cfg c now st => ⟨fun h => checkRateLimit_denied h, fun h => ?_⟩, rfl⟩
  exact checkRateLimit_allowed (fun hge => absurd hge (Nat.not_le.mpr h))

/-- A requestCounts map holding two timestamps for client a, one of them
already far outside any 1000 ms window. -/
def staleSt : RLState := fun c => if c = "a" then [0, 500] else []

/-- C2 counterexample: with maxRequests 1 and windowMs 1000, a check for
client a at now = 1400 against stored timestamps [0, 500] is denied, and
because the denied branch returns before requestCounts.set, the stale
timestamp 0 is still stored afterwards even though 0 < now - windowMs:
the stored sequence is not confined to [now - windowMs, now] after a
call that returns false. -/
theorem checkRateLimit_stale_after_denial :
    (checkRateLimit ⟨1, 1000⟩ "a" 1400 staleSt).1 = false ∧
    (0 : Int) ∈ (checkRateLimit ⟨1, 1000⟩ "a" 1400 staleSt).2 "a" ∧
    (0 : Int) < 1400 - 1000 := by
  refine ⟨rfl, ?_, by decide⟩
  show (0 : Int) ∈ staleSt "a"
  simp [staleSt]

/-- C2 amended: provided windowMs is nonnegative and the stored sequence
for the checked client is ascending with no timestamp after now (true of
sequences built from a monotone clock), a checkRateLimit call that
returns true leaves the stored sequence for that client ascending and
confined to [now - windowMs, now]; a call that returns false leaves the
whole map unchanged, so out-of-window timestamps can remain stored after
a denied check. -/
theorem checkRateLimit_window_invariant (cfg : RateCfg) (c : String)
    (now : Int) (st : RLState) (hw : 0 ≤ cfg.windowMs)
    (hsort : (st c).Sorted (· ≤ ·)) (hpast : ∀ t ∈ st c, t ≤ now) :
    ((checkRateLimit cfg c now st).1 = true →
      ((checkRateLimit cfg c now st).2 c).Sorted (· ≤ ·) ∧
      ∀ t ∈ (checkRateLimit cfg c now st).2 c,
        now - cfg.windowMs ≤ t ∧ t ≤ now) ∧
    ((checkRateLimit cfg c now st).1 = false →
      (checkRateLimit cfg c now st).2 = st) := by
  by_cases hlen : ((st c).filter
      (fun t => decide (now - t < cfg.windowMs))).length ≥ cfg.maxRequests
  · rw [checkRateLimit_denied hlen]
    exact ⟨fun h => by simp at h, fun _ => rfl⟩
  · have happ : ((true, fun x => if x = c then
        (st c).filter (fun t => decide (now - t < cfg.windowMs)) ++ [now]
      else st x) : Bool × RLState).2 c =
        (st c).filter (fun t => decide (now - t < cfg.windowMs)) ++ [now] := by
      simp
    rw [checkRateLimit_allowed hlen, happ]
    refine ⟨fun _ => ⟨?_, ?_⟩, fun h => by simp at h⟩
    · refine List.pairwise_append.mpr
        ⟨hsort.filter _, List.pairwise_singleton _ now, fun a ha b hb => ?_⟩
      rw [List.mem_singleton] at hb
      subst hb
      exact hpast a (List.mem_of_mem_filter ha)
    · intro t ht
      rcases List.mem_append.mp ht with ht | ht
      · rcases List.mem_filter.mp ht with ⟨hmem, hcond⟩
        have hlt : now - t < cfg.windowMs := of_decide_eq_true hcond
        have hle := hpast t hmem
        exact ⟨by omega, hle⟩
      · rw [List.mem_singleton] at ht
        subst ht
        exact ⟨by omega, le_refl _⟩

/-- A well-formed prior map for the C2 witness: client a has two
in-window, ascending, past timestamps. -/
def pastSt : RLState := fun c => if c = "a" then [100, 200] else []

/-- C2 witness: the amended invariant applied at a concrete call that
returns true (maxRequests 3, windowMs 1000, now 500, stored [100, 200]). -/
theorem checkRateLimit_window_invariant_witness :
    ((checkRateLimit ⟨3, 1000⟩ "a" 500 pastSt).1 = true →
      ((checkRateLimit ⟨3, 1000⟩ "a" 500 pastSt).2 "a").Sorted (· ≤ ·) ∧
      ∀ t ∈ (checkRateLimit ⟨3, 1000⟩ "a" 500 pastSt).2 "a",
        (500 : Int) - 1000 ≤ t ∧ t ≤ 500) ∧
    ((checkRateLimit ⟨3, 1000⟩ "a" 500 pastSt).1 = false →
      (checkRateLimit ⟨3, 1000⟩ "a" 500 pastSt).2 = pastSt) :=
  checkRateLimit_window_invariant ⟨3, 1000⟩ "a" 500 pastSt (by decide)
    (by rw [show pastSt "a" = [100, 200] from rfl]; decide)
    (by rw [show pastSt "a" = [100, 200] from rfl]; decide)

/-- C10: a checkRateLimit call for one client id never changes the stored
timestamp sequence of a different client id. -/
theorem checkRateLimit_frame (cfg : RateCfg) (c : String) (now : Int)
    (st : RLState) (c' : String) (h : c' ≠ c) :
    (checkRateLimit cfg c now st).2 c' = st c' := by
  by_cases hlen : ((st c).filter
      (fun t => decide (now - t < cfg.windowMs))).length ≥ cfg.maxRequests
  · rw [checkRateLimit_denied hlen]
  · rw [checkRateLimit_allowed hlen]
    simp [h]

/-- C10 witness: a check for client a leaves the (empty) sequence of
client b empty. -/
theorem checkRateLimit_frame_witness :
    (checkRateLimit ⟨3, 1000⟩ "a" 0 emptyRL).2 "b" = emptyRL "b" :=
  checkRateLimit_frame ⟨3, 1000⟩ "a" 0 emptyRL "b" (by decide)

/-! Sanitizers: claims C7 and C8. -/

/-- C7: sanitizeInput keeps exactly the characters outside the dangerous
class, in order (it is the filter of the character sequence, hence a
subsequence of the input); its output contains none of the four dangerous
characters; and it is idempotent.  It is a total Lean function, matching
the total String.prototype.replace. -/
theorem sanitizeInput_spec (s : String) :
    (sanitizeInput s).data = s.data.filter (fun c => !(isDangerousChar c)) ∧
    List.Sublist (sanitizeInput s).data s.data ∧
    (∀ c ∈ (sanitizeInput s).data, isDangerousChar c = false) ∧
    sanitizeInput (sanitizeInput s) = sanitizeInput s := by
  refine ⟨rfl, List.filter_sublist _, fun c hc => ?_, ?_⟩
  · have h := (List.mem_filter.mp hc).2
    simpa using h
  · show String.mk _ = String.mk _
    congr 1
    show List.filter _ (List.filter _ s.data) = _
    rw [List.filter_filter]
    simp

/-- One replaceChar distributes over list append. -/
lemma replaceChar_append (c : Char) (r l₁ l₂ : List Char) :
    replaceChar c r (l₁ ++ l₂) = replaceChar c r l₁ ++ replaceChar c r l₂ :=
  List.flatMap_append ..

/-- The chain of four replaces applied to a single character equals the
per-character escape: the four replacement texts contain none of the
characters the later replaces look for, so the stages never interfere. -/
lemma replaceChain_single (x : Char) :
    replaceChar (Char.ofNat 39) aposEntity
      (replaceChar (Char.ofNat 34) quotEntity
        (replaceChar '>' gtEntity (if x = '<' then ltEntity else [x]))) =
    escapeChar x := by
  by_cases h1 : x = '<'
  · subst h1; decide
  · rw [if_neg h1]
    by_cases h2 : x = '>'
    · subst h2; rw [escapeChar, if_neg h1, if_pos rfl]; decide
    · have e2 : replaceChar '>' gtEntity [x] = [x] := by
        simp [replaceChar, h2]
      rw [e2]
      by_cases h3 : x = Char.ofNat 34
      · subst h3; rw [escapeChar, if_neg h1, if_neg h2, if_pos rfl]; decide
      · have e3 : replaceChar (Char.ofNat 34) quotEntity [x] = [x] := by
          simp [replaceChar, h3]
        rw [e3]
        by_cases h4 : x = Char.ofNat 39
        · subst h4
          rw [escapeChar, if_neg h1, if_neg h2, if_neg h3, if_pos rfl]
          decide
        · have e4 : replaceChar (Char.ofNat 39) aposEntity [x] = [x] := by
            simp [replaceChar, h4]
          rw [e4, escapeChar, if_neg h1, if_neg h2, if_neg h3, if_neg h4]

/-- The chain of four replaces is the flatMap of the per-character
escape. -/
lemma replaceChain_eq_flatMap (l : List Char) :
    replaceChar (Char.ofNat 39) aposEntity
      (replaceChar (Char.ofNat 34) quotEntity
        (replaceChar '>' gtEntity (replaceChar '<' ltEntity l))) =
    l.flatMap escapeChar := by
  induction l with
  | nil => rfl
  | cons x l ih =>
    have hcons : replaceChar '<' ltEntity (x :: l) =
        (if x = '<' then ltEntity else [x]) ++ replaceChar '<' ltEntity l := by
      simp [replaceChar]
    rw [hcons, replaceChar_append, replaceChar_append, replaceChar_append, ih,
      List.flatMap_cons, replaceChain_single]

/-- The character data of sanitizeHtml is the per-character escape of the
character data of the input. -/
lemma sanitizeHtml_data (s : String) :
    (sanitizeHtml s).data = s.data.flatMap escapeChar :=
  replaceChain_eq_flatMap s.data

/-- Whatever escapeChar emits is free of the four dangerous characters. -/
lemma escapeChar_clean (x c : Char) (h : c ∈ escapeChar x) :
    isDangerousChar c = false := by
  unfold escapeChar at h
  split_ifs at h with h1 h2 h3 h4
  · exact (by decide : ∀ d ∈ ltEntity, isDangerousChar d = false) c h
  · exact (by decide : ∀ d ∈ gtEntity, isDangerousChar d = false) c h
  · exact (by decide : ∀ d ∈ quotEntity, isDangerousChar d = false) c h
  · exact (by decide : ∀ d ∈ aposEntity, isDangerousChar d = false) c h
  · rw [List.mem_singleton] at h
    subst h
    simp [isDangerousChar, h1, h2, h3, h4]

/-- On a list free of the four dangerous characters, the per-character
escape changes nothing. -/
lemma flatMap_escapeChar_clean (l : List Char)
    (h : ∀ c ∈ l, isDangerousChar c = false) : l.flatMap escapeChar = l := by
  induction l with
  | nil => rfl
  | cons x l ih =>
    have hx := h x (List.mem_cons_self x l)
    have hxe : escapeChar x = [x] := by
      simp only [isDangerousChar, Bool.or_eq_false_iff,
        decide_eq_false_iff_not] at hx
      rw [escapeChar, if_neg hx.1.1.1, if_neg hx.1.1.2, if_neg hx.2,
        if_neg hx.1.2]
    rw [List.flatMap_cons, hxe, ih (fun c hc => h c (List.mem_cons_of_mem x hc))]
    rfl

/-- sanitizeHtml output never holds a dangerous character, so a second
application finds nothing to replace. -/
lemma sanitizeHtml_idem (s : String) :
    sanitizeHtml (sanitizeHtml s) = sanitizeHtml s := by
  have h1 : (sanitizeHtml (sanitizeHtml s)).data = (sanitizeHtml s).data := by
    rw [sanitizeHtml_data (sanitizeHtml s)]
    refine flatMap_escapeChar_clean _ (fun c hc => ?_)
    rw [sanitizeHtml_data s] at hc
    obtain ⟨x, _, hcx⟩ := List.mem_flatMap.mp hc
    exact escapeChar_clean x c hcx
  exact congrArg String.mk h1

/-- C8 counterexample to the non-idempotence part of the claim: there is
no input on which applying sanitizeHtml twice differs from applying it
once, because the ampersand is not among the replaced characters, so
already-produced entities are never re-escaped. -/
theorem sanitizeHtml_not_idempotent_false :
    (∃ s : String, sanitizeHtml (sanitizeHtml s) ≠ sanitizeHtml s) = False :=
  eq_false (fun ⟨s, hs⟩ => hs (sanitizeHtml_idem s))

/-- C8 amended: sanitizeHtml replaces each occurrence of the four
dangerous characters by its entity text and leaves every other character
unchanged (it is the per-character flatMap of escapeChar), so its output
contains no literal dangerous character; and it IS idempotent, because
the ampersand is never escaped, so entities produced by a first
application pass through a second application unchanged. -/
theorem sanitizeHtml_spec (s : String) :
    (sanitizeHtml s).data = s.data.flatMap escapeChar ∧
    (∀ c ∈ (sanitizeHtml s).data, isDangerousChar c = false) ∧
    sanitizeHtml (sanitizeHtml s) = sanitizeHtml s := by
  refine ⟨sanitizeHtml_data s, fun c hc => ?_, sanitizeHtml_idem s⟩
  rw [sanitizeHtml_data s] at hc
  obtain ⟨x, _, hcx⟩ := List.mem_flatMap.mp hc
  exact escapeChar_clean x c hcx

/-! Resilient fetch: claims C3, C4, C5. -/

/-- Whether a try-block outcome is a success. -/
def isOkResult : Except FetchError Nat → Bool
  | .ok _ => true
  | .error _ => false

/-- The try block never produces the rate-limit error: that error arises
only from the gate before the try block. -/
lemma evalAttempt_ne_rateLimited (o : NetOut) :
    evalAttempt o ≠ .error .rateLimited := by
  cases o with
  | failure => simp [evalAttempt]
  | success r =>
    cases hct : r.contentType with
    | none => simp [evalAttempt, hct]
    | some ct =>
      simp only [evalAttempt, hct]
      split_ifs <;> simp

/-- An environment whose clock is stuck at 0 and whose every network call
fails at the transport level. -/
def denyEnv : FetchEnv := ⟨fun _ => 0, fun _ => .failure⟩

/-- One-step unfolding of the fetchWithRetry recursion. -/
lemma fetchAux_unfold (cfg : RateCfg) (env : FetchEnv) (c : String)
    (remaining k : Nat) (rl : RLState) :
    fetchAux cfg env c remaining k rl =
      (let gate := checkRateLimit cfg c (env.timeAt k) rl
       if gate.1 then
         match evalAttempt (env.outcomeAt k) with
         | .ok data => ⟨.ok data, gate.2, 1, 1⟩
         | .error e =>
           match remaining with
           | 0 => ⟨.error e, gate.2, 1, 1⟩
           | r + 1 =>
             let rest := fetchAux cfg env c r (k + 1) gate.2
             ⟨rest.result, rest.rl, rest.gateChecks + 1, rest.netCalls + 1⟩
       else ⟨.error .rateLimited, gate.2, 1, 0⟩) := by
  rw [fetchAux.eq_1]

/-- Gate and network accounting of a whole fetchWithRetry recursion: the
limiter is consulted at least once and at most remaining + 1 times; a run
that ends rate-limited had exactly one limiter check with no network call
(the final, denied one: a denial is never retried), every other limiter
check issued exactly one network call. -/
lemma fetchAux_accounting (cfg : RateCfg) (env : FetchEnv) (c : String) :
    ∀ (remaining k : Nat) (rl : RLState),
      1 ≤ (fetchAux cfg env c remaining k rl).gateChecks ∧
      (fetchAux cfg env c remaining k rl).gateChecks ≤ remaining + 1 ∧
      (fetchAux cfg env c remaining k rl).netCalls ≤
        (fetchAux cfg env c remaining k rl).gateChecks ∧
      ((fetchAux cfg env c remaining k rl).result = .error .rateLimited →
        (fetchAux cfg env c remaining k rl).netCalls + 1 =
          (fetchAux cfg env c remaining k rl).gateChecks) ∧
      ((fetchAux cfg env c remaining k rl).result ≠ .error .rateLimited →
        (fetchAux cfg env c remaining k rl).netCalls =
          (fetchAux cfg env c remaining k rl).gateChecks) := by
  intro remaining
  induction remaining with
  | zero =>
    intro k rl
    rw [fetchAux_unfold]
    dsimp only
    split
    · split
      · dsimp only
        exact ⟨le_refl 1, by omega, le_refl 1, fun h => absurd h (by simp),
          fun _ => rfl⟩
      · next e heval =>
        dsimp only
        refine ⟨le_refl 1, by omega, le_refl 1, fun h => ?_, fun _ => rfl⟩
        have he : e = FetchError.rateLimited := by simpa using h
        exact absurd (heval.trans (by rw [he]))
          (evalAttempt_ne_rateLimited _)
    · dsimp only
      exact ⟨le_refl 1, by omega, by omega, fun _ => rfl,
        fun h => absurd rfl h⟩
  | succ r ih =>
    intro k rl
    rw [fetchAux_unfold]
    dsimp only
    split
    · split
      · dsimp only
        exact ⟨le_refl 1, by omega, le_refl 1, fun h => absurd h (by simp),
          fun _ => rfl⟩
      · next e heval =>
        dsimp only
        obtain ⟨ih1, ih2, ih3, ih4, ih5⟩ :=
          ih (k + 1) ((checkRateLimit cfg c (env.timeAt k) rl).2)
        refine ⟨by omega, by omega, by omega, fun h => ?_, fun h => ?_⟩
        · have := ih4 h
          omega
        · have := ih5 h
          omega
    · dsimp only
      exact ⟨le_refl 1, by omega, by omega, fun _ => rfl,
        fun h => absurd rfl h⟩

/-- C3: when the limiter denies the client of a fetchWithRetry call, the
call fails at once with the rate-limit error after that single limiter
consultation: no network request is issued and no retry happens for that
failure. -/
theorem fetchWithRetry_denied (cfg : RateCfg) (rcfg : RetryCfg)
    (env : FetchEnv) (c : String) (retryCount : Nat) (rl : RLState)
    (h : (checkRateLimit cfg c (env.timeAt 0) rl).1 = false) :
    (fetchWithRetry cfg rcfg env c retryCount rl).result =
      .error .rateLimited ∧
    (fetchWithRetry cfg rcfg env c retryCount rl).netCalls = 0 ∧
    (fetchWithRetry cfg rcfg env c retryCount rl).gateChecks = 1 := by
  unfold fetchWithRetry
  rw [fetchAux_unfold]
  simp [h]

/-- C3 witness: with maxRequests 0, the very first call is denied with no
network activity. -/
theorem fetchWithRetry_denied_witness :
    (fetchWithRetry ⟨0, 900000⟩ ⟨3⟩ denyEnv "c" 0 emptyRL).result =
      .error .rateLimited ∧
    (fetchWithRetry ⟨0, 900000⟩ ⟨3⟩ denyEnv "c" 0 emptyRL).netCalls = 0 ∧
    (fetchWithRetry ⟨0, 900000⟩ ⟨3⟩ denyEnv "c" 0 emptyRL).gateChecks = 1 :=
  fetchWithRetry_denied ⟨0, 900000⟩ ⟨3⟩ denyEnv "c" 0 emptyRL rfl

/-- C4 counterexample: under permanent throttling (maxRequests 0) with
MAX_RETRIES 3, the claim predicts the rate-limit failure is retried until
the retry budget of 4 gated attempts is exhausted; the code instead ends
the call after a single limiter check, with no retry and no network
call. -/
theorem fetchWithRetry_throttle_not_retried :
    (fetchWithRetry ⟨0, 900000⟩ ⟨3⟩ denyEnv "c" 0 emptyRL).result =
      .error .rateLimited ∧
    (fetchWithRetry ⟨0, 900000⟩ ⟨3⟩ denyEnv "c" 0 emptyRL).gateChecks = 1 ∧
    ¬ (fetchWithRetry ⟨0, 900000⟩ ⟨3⟩ denyEnv "c" 0 emptyRL).gateChecks =
        3 + 1 := by
  exact ⟨rfl, rfl, by decide⟩

/-- C4 amended: network, HTTP-status and content-type failures are the
kinds retried up to the ceiling; every attempt, including each retry, is
gated by the limiter before its network call (network calls never exceed
limiter checks); but a rate-limit denial is never retried — it ends the
whole call immediately with the rate-limit error, so a rate-limited run
has exactly one check without a network call and a non-rate-limited run
has exactly one network call per check, and throttling therefore cannot
consume the retry budget.  Concretely, with maxRequests 1 and MAX_RETRIES
3, a transport failure followed by a denial on the first retry ends the
run at 2 limiter checks and 1 network call even though 2 more retries
were allowed. -/
theorem fetchWithRetry_gate_accounting :
    (∀ (cfg : RateCfg) (env : FetchEnv) (c : String) (remaining k : Nat)
        (rl : RLState),
      1 ≤ (fetchAux cfg env c remaining k rl).gateChecks ∧
      (fetchAux cfg env c remaining k rl).gateChecks ≤ remaining + 1 ∧
      (fetchAux cfg env c remaining k rl).netCalls ≤
        (fetchAux cfg env c remaining k rl).gateChecks ∧
      ((fetchAux cfg env c remaining k rl).result = .error .rateLimited →
        (fetchAux cfg env c remaining k rl).netCalls + 1 =
          (fetchAux cfg env c remaining k rl).gateChecks) ∧
      ((fetchAux cfg env c remaining k rl).result ≠ .error .rateLimited →
        (fetchAux cfg env c remaining k rl).netCalls =
          (fetchAux cfg env c remaining k rl).gateChecks)) ∧
    (fetchWithRetry ⟨1, 900000⟩ ⟨3⟩ denyEnv "c" 0 emptyRL).result =
      .error .rateLimited ∧
    (fetchWithRetry ⟨1, 900000⟩ ⟨3⟩ denyEnv "c" 0 emptyRL).gateChecks = 2 ∧
    (fetchWithRetry ⟨1, 900000⟩ ⟨3⟩ denyEnv "c" 0 emptyRL).netCalls = 1 :=
  ⟨fun cfg env c remaining k rl => fetchAux_accounting cfg env c remaining k rl,
   rfl, rfl, rfl⟩

/-- If the client has strictly fewer stored timestamps than maxRequests,
the check passes, and the stored list grows by at most one entry. -/
lemma checkRateLimit_pass (cfg : RateCfg) (c : String) (now : Int)
    (rl : RLState) (h : (rl c).length < cfg.maxRequests) :
    (checkRateLimit cfg c now rl).1 = true ∧
    ((checkRateLimit cfg c now rl).2 c).length ≤ (rl c).length + 1 := by
  have hflt := List.length_filter_le
    (fun t => decide (now - t < cfg.windowMs)) (rl c)
  have hlen : ¬ ((rl c).filter
      (fun t => decide (now - t < cfg.windowMs))).length ≥ cfg.maxRequests :=
    fun hge => absurd hge (Nat.not_le.mpr (lt_of_le_of_lt hflt h))
  rw [checkRateLimit_allowed hlen]
  refine ⟨rfl, ?_⟩
  dsimp only
  rw [if_pos rfl]
  simp only [List.length_append, List.length_singleton]
  omega

/-- A run whose gated attempts all fail in the try block: every level
passes the gate (capacity hypothesis), every outcome is a failure, so the
run uses remaining + 1 gate checks and network calls and ends with the
failure of the last attempt. -/
lemma fetchAux_all_fail (cfg : RateCfg) (env : FetchEnv) (c : String) :
    ∀ (remaining k : Nat) (rl : RLState),
      (rl c).length + remaining < cfg.maxRequests →
      (∀ j, j ≤ remaining →
        isOkResult (evalAttempt (env.outcomeAt (k + j))) = false) →
      (fetchAux cfg env c remaining k rl).result =
        evalAttempt (env.outcomeAt (k + remaining)) ∧
      (fetchAux cfg env c remaining k rl).gateChecks = remaining + 1 ∧
      (fetchAux cfg env c remaining k rl).netCalls = remaining + 1 := by
  intro remaining
  induction remaining with
  | zero =>
    intro k rl hcap hf
    have hg := checkRateLimit_pass cfg c (env.timeAt k) rl (by omega)
    rw [fetchAux_unfold]
    dsimp only
    rw [hg.1, if_pos rfl]
    have h0 := hf 0 (Nat.le_refl 0)
    rw [Nat.add_zero] at h0
    rcases heval : evalAttempt (env.outcomeAt k) with e | d
    · refine ⟨?_, ?_, ?_⟩ <;> simp [heval]
    · rw [heval] at h0
      simp [isOkResult] at h0
  | succ r ih =>
    intro k rl hcap hf
    have hg := checkRateLimit_pass cfg c (env.timeAt k) rl (by omega)
    rw [fetchAux_unfold]
    dsimp only
    rw [hg.1, if_pos rfl]
    have h0 := hf 0 (Nat.zero_le _)
    rw [Nat.add_zero] at h0
    rcases heval : evalAttempt (env.outcomeAt k) with e | d
    · simp only [heval]
      obtain ⟨ih1, ih2, ih3⟩ :=
        ih (k + 1) ((checkRateLimit cfg c (env.timeAt k) rl).2)
          (by have := hg.2; omega)
          (fun j hj => by
            have h2 := hf (j + 1) (by omega)
            rw [show k + (j + 1) = k + 1 + j by omega] at h2
            exact h2)
      refine ⟨?_, by omega, by omega⟩
      rw [ih1, show k + 1 + r = k + (r + 1) by omega]
    · rw [heval] at h0
      simp [isOkResult] at h0

/-- A run whose first remaining gated attempts fail and whose final
allowed attempt succeeds: the run returns that success after
remaining + 1 gate checks and network calls. -/
lemma fetchAux_eventual_ok (cfg : RateCfg) (env : FetchEnv) (c : String) :
    ∀ (remaining k : Nat) (rl : RLState) (p : Nat),
      (rl c).length + remaining < cfg.maxRequests →
      (∀ j, j < remaining →
        isOkResult (evalAttempt (env.outcomeAt (k + j))) = false) →
      evalAttempt (env.outcomeAt (k + remaining)) = .ok p →
      (fetchAux cfg env c remaining k rl).result = .ok p ∧
      (fetchAux cfg env c remaining k rl).gateChecks = remaining + 1 ∧
      (fetchAux cfg env c remaining k rl).netCalls = remaining + 1 := by
  intro remaining
  induction remaining with
  | zero =>
    intro k rl p hcap _ hok
    have hg := checkRateLimit_pass cfg c (env.timeAt k) rl (by omega)
    rw [Nat.add_zero] at hok
    rw [fetchAux_unfold]
    dsimp only
    rw [hg.1, if_pos rfl]
    refine ⟨?_, ?_, ?_⟩ <;> simp [hok]
  | succ r ih =>
    intro k rl p hcap hf hok
    have hg := checkRateLimit_pass cfg c (env.timeAt k) rl (by omega)
    rw [fetchAux_unfold]
    dsimp only
    rw [hg.1, if_pos rfl]
    have h0 := hf 0 (Nat.zero_lt_succ r)
    rw [Nat.add_zero] at h0
    rcases heval : evalAttempt (env.outcomeAt k) with e | d
    · simp only [heval]
      obtain ⟨ih1, ih2, ih3⟩ :=
        ih (k + 1) ((checkRateLimit cfg c (env.timeAt k) rl).2) p
          (by have := hg.2; omega)
          (fun j hj => by
            have h2 := hf (j + 1) (by omega)
            rw [show k + (j + 1) = k + 1 + j by omega] at h2
            exact h2)
          (by rw [show k + 1 + r = k + (r + 1) by omega]; exact hok)
      exact ⟨ih1, by omega, by omega⟩
    · rw [heval] at h0
      simp [isOkResult] at h0

/-- An environment whose first three network calls fail at the transport
level and whose fourth returns a JSON 200 response with body 42. -/
def retryEnv : FetchEnv :=
  ⟨fun _ => 0, fun k => if k < 3 then .failure
    else .success ⟨some "application/json", 200, 42⟩⟩

/-- C5: a try-block failure (timeout/abort, network, content-type or
status error) is retried exactly while retries remain — retryCount below
MAX_RETRIES — so a full run issues at most MAX_RETRIES + 1 network calls;
a run (with limiter capacity) whose first MAX_RETRIES attempts fail and
whose final allowed attempt succeeds returns that success; a run all of
whose MAX_RETRIES + 1 attempts fail propagates the failure of the last
attempt.  (The fixed RETRY_DELAY_MS pause between attempts is real time,
outside this embedding; the clock is the oracle timeAt.)  Concretely,
with MAX_RETRIES 3, three transport failures followed by a success
return the success after 4 network calls. -/
theorem fetchWithRetry_retry_spec :
    (∀ (cfg : RateCfg) (rcfg : RetryCfg) (env : FetchEnv) (c : String)
        (rl : RLState),
      (fetchWithRetry cfg rcfg env c 0 rl).netCalls ≤ rcfg.MAX_RETRIES + 1) ∧
    (∀ (cfg : RateCfg) (rcfg : RetryCfg) (env : FetchEnv) (c : String)
        (rl : RLState) (p : Nat),
      (rl c).length + rcfg.MAX_RETRIES < cfg.maxRequests →
      (∀ j, j < rcfg.MAX_RETRIES →
        isOkResult (evalAttempt (env.outcomeAt j)) = false) →
      evalAttempt (env.outcomeAt rcfg.MAX_RETRIES) = .ok p →
      (fetchWithRetry cfg rcfg env c 0 rl).result = .ok p ∧
      (fetchWithRetry cfg rcfg env c 0 rl).netCalls = rcfg.MAX_RETRIES + 1) ∧
    (∀ (cfg : RateCfg) (rcfg : RetryCfg) (env : FetchEnv) (c : String)
        (rl : RLState),
      (rl c).length + rcfg.MAX_RETRIES < cfg.maxRequests →
      (∀ j, j ≤ rcfg.MAX_RETRIES →
        isOkResult (evalAttempt (env.outcomeAt j)) = false) →
      (fetchWithRetry cfg rcfg env c 0 rl).result =
        evalAttempt (env.outcomeAt rcfg.MAX_RETRIES) ∧
      (fetchWithRetry cfg rcfg env c 0 rl).netCalls =
        rcfg.MAX_RETRIES + 1) ∧
    (∀ (cfg : RateCfg) (env : FetchEnv) (c : String) (remaining k : Nat)
        (rl : RLState),
      (checkRateLimit cfg c (env.timeAt k) rl).1 = true →
      isOkResult (evalAttempt (env.outcomeAt k)) = false →
      fetchAux cfg env c (remaining + 1) k rl =
        ⟨(fetchAux cfg env c remaining (k + 1)
            (checkRateLimit cfg c (env.timeAt k) rl).2).result,
         (fetchAux cfg env c remaining (k + 1)
            (checkRateLimit cfg c (env.timeAt k) rl).2).rl,
         (fetchAux cfg env c remaining (k + 1)
            (checkRateLimit cfg c (env.timeAt k) rl).2).gateChecks + 1,
         (fetchAux cfg env c remaining (k + 1)
            (checkRateLimit cfg c (env.timeAt k) rl).2).netCalls + 1⟩ ∧
      fetchAux cfg env c 0 k rl =
        ⟨evalAttempt (env.outcomeAt k),
         (checkRateLimit cfg c (env.timeAt k) rl).2, 1, 1⟩) ∧
    (∀ (cfg : RateCfg) (rcfg : RetryCfg) (env : FetchEnv) (c : String)
        (retryCount : Nat) (rl : RLState),
      (retryCount < rcfg.MAX_RETRIES →
        fetchWithRetry cfg rcfg env c retryCount rl =
          fetchAux cfg env c
            ((rcfg.MAX_RETRIES - (retryCount + 1)) + 1) 0 rl) ∧
      (rcfg.MAX_RETRIES ≤ retryCount →
        fetchWithRetry cfg rcfg env c retryCount rl =
          fetchAux cfg env c 0 0 rl)) ∧
    ((fetchWithRetry ⟨100, 900000⟩ ⟨3⟩ retryEnv "c" 0 emptyRL).result =
        .ok 42 ∧
      (fetchWithRetry ⟨100, 900000⟩ ⟨3⟩ retryEnv "c" 0 emptyRL).netCalls =
        3 + 1) := by
  refine ⟨?_, ?_, ?_, ?_, ?_, rfl, rfl⟩
  · intro cfg rcfg env c rl
    obtain ⟨_, h2, h3, _, _⟩ :=
      fetchAux_accounting cfg env c (rcfg.MAX_RETRIES - 0) 0 rl
    show (fetchAux cfg env c (rcfg.MAX_RETRIES - 0) 0 rl).netCalls ≤ _
    omega
  · intro cfg rcfg env c rl p hcap hf hok
    obtain ⟨e1, _, e3⟩ := fetchAux_eventual_ok cfg env c rcfg.MAX_RETRIES 0 rl p
      hcap
      (fun j hj => by rw [Nat.zero_add]; exact hf j hj)
      (by rw [Nat.zero_add]; exact hok)
    exact ⟨e1, e3⟩
  · intro cfg rcfg env c rl hcap hf
    obtain ⟨e1, _, e3⟩ := fetchAux_all_fail cfg env c rcfg.MAX_RETRIES 0 rl
      hcap
      (fun j hj => by rw [Nat.zero_add]; exact hf j hj)
    rw [Nat.zero_add] at e1
    exact ⟨e1, e3⟩
  · intro cfg env c remaining k rl hgate hfail
    constructor
    · rw [fetchAux_unfold]
      dsimp only
      rw [hgate, if_pos rfl]
      rcases heval : evalAttempt (env.outcomeAt k) with e | d
      · simp only [heval]
      · rw [heval] at hfail
        simp [isOkResult] at hfail
    · rw [fetchAux_unfold]
      dsimp only
      rw [hgate, if_pos rfl]
      rcases heval : evalAttempt (env.outcomeAt k) with e | d <;>
        simp only [heval]
  · intro cfg rcfg env c retryCount rl
    constructor
    · intro hlt
      unfold fetchWithRetry
      rw [show rcfg.MAX_RETRIES - retryCount =
        (rcfg.MAX_RETRIES - (retryCount + 1)) + 1 from by omega]
    · intro hle
      unfold fetchWithRetry
      rw [Nat.sub_eq_zero_of_le hle]

/-! Response cache: claim C6. -/

/-- An environment whose every network call immediately returns a JSON
200 response with body n. -/
def okEnv (n : Nat) : FetchEnv :=
  ⟨fun _ => 0, fun _ => .success ⟨some "application/json", 200, n⟩⟩

/-- First scenario call: empty cache at time 0, the network serves 42. -/
def cacheCall1 : CacheRunResult :=
  fetchWithCache ⟨true, 300000⟩ ⟨100, 900000⟩ ⟨3⟩ (okEnv 42) "c" "u"
    0 0 emptyCache emptyRL

/-- Second scenario call: same url 1000 ms later (inside DURATION_MS);
the network would serve 43, but must not be consulted. -/
def cacheCall2 : CacheRunResult :=
  fetchWithCache ⟨true, 300000⟩ ⟨100, 900000⟩ ⟨3⟩ (okEnv 43) "c" "u"
    1000 1000 cacheCall1.cache cacheCall1.rl

/-- Third scenario call: same url exactly DURATION_MS after the store, so
the entry is no longer fresh; the network serves 44. -/
def cacheCall3 : CacheRunResult :=
  fetchWithCache ⟨true, 300000⟩ ⟨100, 900000⟩ ⟨3⟩ (okEnv 44) "c" "u"
    300000 300000 cacheCall2.cache cacheCall2.rl

/-- When caching is enabled and the resilient fetch succeeds, the
fetch-and-store path returns the parsed body and overwrites the entry for
this url with (body, store time), leaving every other entry alone. -/
lemma fetchFresh_ok {ccfg : CacheCfg} {cfg : RateCfg} {rcfg : RetryCfg}
    {env : FetchEnv} {c url : String} {nowStore : Int} {cache : Cache}
    {rl : RLState} {d : Nat} (he : ccfg.ENABLED = true)
    (hok : (fetchWithRetry cfg rcfg env c 0 rl).result = .ok d) :
    fetchFresh ccfg cfg rcfg env c url nowStore cache rl =
      ⟨.ok d, fun u => if u = url then some (d, nowStore) else cache u,
       (fetchWithRetry cfg rcfg env c 0 rl).rl,
       (fetchWithRetry cfg rcfg env c 0 rl).netCalls⟩ := by
  unfold fetchFresh
  simp only [hok, he, if_pos]

/-- C6: with caching enabled, a fetchWithCache call that finds an entry
for the url with age now - storedAt under DURATION_MS returns the stored
payload with no network call and no state change; otherwise it runs the
resilient fetch and, when that succeeds with payload d, returns d after
storing (d, store time) under the url — replacing any prior entry and
touching no other key.  Concretely, of two calls for the same url within
DURATION_MS only the first touches the network (one call), and a third
call once DURATION_MS has elapsed touches it again. -/
theorem fetchWithCache_spec :
    (∀ (ccfg : CacheCfg) (cfg : RateCfg) (rcfg : RetryCfg) (env : FetchEnv)
        (c url : String) (now nowStore : Int) (cache : Cache)
        (rl : RLState) (d : Nat) (ts : Int),
      ccfg.ENABLED = true → cache url = some (d, ts) →
      now - ts < ccfg.DURATION_MS →
      fetchWithCache ccfg cfg rcfg env c url now nowStore cache rl =
        ⟨.ok d, cache, rl, 0⟩) ∧
    (∀ (ccfg : CacheCfg) (cfg : RateCfg) (rcfg : RetryCfg) (env : FetchEnv)
        (c url : String) (now nowStore : Int) (cache : Cache)
        (rl : RLState),
      ccfg.ENABLED = true →
      (∀ d ts, cache url = some (d, ts) → ¬ now - ts < ccfg.DURATION_MS) →
      ∀ d, (fetchWithRetry cfg rcfg env c 0 rl).result = .ok d →
      (fetchWithCache ccfg cfg rcfg env c url now nowStore cache
          rl).result = .ok d ∧
      (fetchWithCache ccfg cfg rcfg env c url now nowStore cache
          rl).cache url = some (d, nowStore) ∧
      (∀ u, u ≠ url →
        (fetchWithCache ccfg cfg rcfg env c url now nowStore cache
          rl).cache u = cache u) ∧
      (fetchWithCache ccfg cfg rcfg env c url now nowStore cache rl).rl =
        (fetchWithRetry cfg rcfg env c 0 rl).rl ∧
      (fetchWithCache ccfg cfg rcfg env c url now nowStore cache
          rl).netCalls = (fetchWithRetry cfg rcfg env c 0 rl).netCalls) ∧
    (cacheCall1.result = .ok 42 ∧ cacheCall1.netCalls = 1 ∧
      cacheCall2.result = .ok 42 ∧ cacheCall2.netCalls = 0 ∧
      cacheCall3.result = .ok 44 ∧ cacheCall3.netCalls = 1) := by
  refine ⟨?_, ?_, rfl, rfl, rfl, rfl, rfl, rfl⟩
  · intro ccfg cfg rcfg env c url now nowStore cache rl d ts he hcu hlt
    unfold fetchWithCache
    rw [he, if_pos rfl]
    simp only [hcu]
    rw [if_pos hlt]
  · intro ccfg cfg rcfg env c url now nowStore cache rl he hstale d hok
    unfold fetchWithCache
    rw [he, if_pos rfl]
    rcases hcu : cache url with _ | ⟨d0, ts0⟩
    · simp only [hcu]
      rw [fetchFresh_ok he hok]
      refine ⟨rfl, ?_, fun u hu => ?_, rfl, rfl⟩
      · dsimp only
        rw [if_pos rfl]
      · dsimp only
        rw [if_neg hu]
    · simp only [hcu]
      rw [if_neg (hstale d0 ts0 hcu), fetchFresh_ok he hok]
      refine ⟨rfl, ?_, fun u hu => ?_, rfl, rfl⟩
      · dsimp only
        rw [if_pos rfl]
      · dsimp only
        rw [if_neg hu]

/-! Statistics: claim C9. -/

/-- Fission of the single forEach pass of calculateStatistics: each of
the seven count maps is its own bump-fold over the reports. -/
lemma foldl_statStep (parse : String → UAResult) :
    ∀ (reports : List Report) (init : StatMaps),
      reports.foldl (statStep parse) init =
        ⟨reports.foldl
            (fun m r => bump m (sanitizeInput r.report.useragent)) init.ua,
         reports.foldl
            (fun m r => bump m (sanitizeInput r.report.clientip)) init.ips,
         reports.foldl
            (fun m r => bump m (sanitizeInput r.report.violateddirective))
            init.dirs,
         reports.foldl
            (fun m r => if refKey r = "" then m else bump m (refKey r))
            init.refs,
         reports.foldl
            (fun m r => bump m (sanitizeInput r.report.blockeduri)) init.uris,
         reports.foldl
            (fun m r => bump m (osKey (parse (sanitizeInput r.report.useragent))))
            init.os,
         reports.foldl
            (fun m r =>
              bump m (browserKey (parse (sanitizeInput r.report.useragent))))
            init.browsers⟩ := by
  intro reports
  induction reports with
  | nil => intro init; rfl
  | cons r rs ih =>
    intro init
    simp only [List.foldl_cons]
    rw [ih]
    rfl

/-- The key of a report is empty exactly when its sanitized referrer is
empty: an empty raw referrer sanitizes to the empty string as well. -/
lemma refKey_eq_empty_iff (r : Report) :
    (refKey r = "") ↔ (sanitizeInput r.report.referrer = "") := by
  unfold refKey
  by_cases h : r.report.referrer = ""
  · rw [if_pos h, h]
    exact ⟨fun _ => rfl, fun _ => rfl⟩
  · rw [if_neg h]

/-- On a report with nonempty sanitized referrer, the group key is that
sanitized referrer. -/
lemma refKey_eq_sanitize {r : Report}
    (h : sanitizeInput r.report.referrer ≠ "") :
    refKey r = sanitizeInput r.report.referrer := by
  unfold refKey
  rw [if_neg (fun h0 => h (by rw [h0]; decide))]

/-- The guarded referrer fold is the plain bump-fold over the reports
whose sanitized referrer is nonempty; reports with an empty or absent
referrer (whose sanitized referrer is empty) are skipped. -/
lemma foldl_refs_filter :
    ∀ (reports : List Report) (init : List (String × Nat)),
      reports.foldl
          (fun m r => if refKey r = "" then m else bump m (refKey r)) init =
        ((reports.filter (fun r =>
            !(decide (sanitizeInput r.report.referrer = "")))).map
          (fun r => sanitizeInput r.report.referrer)).foldl bump init := by
  intro reports
  induction reports with
  | nil => intro init; rfl
  | cons r rs ih =>
    intro init
    rw [List.foldl_cons, List.filter_cons]
    by_cases h : sanitizeInput r.report.referrer = ""
    · rw [if_pos ((refKey_eq_empty_iff r).mpr h), if_neg (by simp [h])]
      exact ih init
    · rw [if_neg (fun h2 => h ((refKey_eq_empty_iff r).mp h2)),
        if_pos (by simp [h]), List.map_cons, List.foldl_cons,
        refKey_eq_sanitize h]
      exact ih _

/-- Bumping a key never touches the stored count of a different key
(map-update path). -/
lemma lookupCount_map_bump (m : List (String × Nat)) (k k' : String)
    (h : k' ≠ k) :
    lookupCount
        (m.map (fun p => if p.1 = k then (p.1, p.2 + 1) else p)) k' =
      lookupCount m k' := by
  induction m with
  | nil => rfl
  | cons a m ih =>
    rw [List.map_cons]
    by_cases ha : a.1 = k
    · rw [if_pos ha]
      have hak : ¬ a.1 = k' := fun hh => h ((ha.symm.trans hh).symm)
      simp only [lookupCount]
      rw [if_neg hak, if_neg hak, ih]
    · rw [if_neg ha]
      simp only [lookupCount]
      by_cases hak : a.1 = k'
      · rw [if_pos hak, if_pos hak]
      · rw [if_neg hak, if_neg hak, ih]

/-- Bumping a key already present raises exactly its stored count by
one. -/
lemma lookupCount_map_bump_self (m : List (String × Nat)) (k : String)
    (hany : m.any (fun p => decide (p.1 = k)) = true) :
    lookupCount
        (m.map (fun p => if p.1 = k then (p.1, p.2 + 1) else p)) k =
      lookupCount m k + 1 := by
  induction m with
  | nil => simp at hany
  | cons a m ih =>
    rw [List.map_cons]
    by_cases ha : a.1 = k
    · rw [if_pos ha]
      simp only [lookupCount]
      rw [if_pos ha, if_pos ha]
    · rw [if_neg ha]
      simp only [lookupCount]
      rw [if_neg ha, if_neg ha]
      have hm : m.any (fun p => decide (p.1 = k)) = true := by
        rw [List.any_cons] at hany
        simpa [ha] using hany
      exact ih hm

/-- A map with no entry for a key stores count 0 for it. -/
lemma lookupCount_eq_zero (m : List (String × Nat)) (k : String)
    (h : m.any (fun p => decide (p.1 = k)) = false) :
    lookupCount m k = 0 := by
  induction m with
  | nil => rfl
  | cons a m ih =>
    rw [List.any_cons, Bool.or_eq_false_iff] at h
    simp only [lookupCount]
    rw [if_neg (of_decide_eq_false h.1)]
    exact ih h.2

/-- Looking up a key absent from the front part of an appended map reads
the back part. -/
lemma lookupCount_append_of_absent (m l : List (String × Nat))
    (k : String) (h : m.any (fun p => decide (p.1 = k)) = false) :
    lookupCount (m ++ l) k = lookupCount l k := by
  induction m with
  | nil => rfl
  | cons a m ih =>
    rw [List.any_cons, Bool.or_eq_false_iff] at h
    rw [List.cons_append]
    simp only [lookupCount]
    rw [if_neg (of_decide_eq_false h.1)]
    exact ih h.2

/-- Looking up a key present in the front part of an appended map never
reaches the back part. -/
lemma lookupCount_append_of_present (m l : List (String × Nat))
    (k : String) (h : m.any (fun p => decide (p.1 = k)) = true) :
    lookupCount (m ++ l) k = lookupCount m k := by
  induction m with
  | nil => simp at h
  | cons a m ih =>
    rw [List.cons_append]
    simp only [lookupCount]
    by_cases ha : a.1 = k
    · rw [if_pos ha, if_pos ha]
    · rw [if_neg ha, if_neg ha]
      have hm : m.any (fun p => decide (p.1 = k)) = true := by
        rw [List.any_cons] at h
        simpa [ha] using h
      exact ih hm

/-- One bump raises the bumped key by one and leaves every other key
unchanged. -/
lemma lookupCount_bump (m : List (String × Nat)) (k k' : String) :
    lookupCount (bump m k) k' =
      if k' = k then lookupCount m k' + 1 else lookupCount m k' := by
  unfold bump
  by_cases hany : m.any (fun p => decide (p.1 = k)) = true
  · rw [if_pos hany]
    by_cases hk : k' = k
    · subst hk
      rw [if_pos rfl]
      exact lookupCount_map_bump_self m k' hany
    · rw [if_neg hk]
      exact lookupCount_map_bump m k k' hk
  · have hany2 : m.any (fun p => decide (p.1 = k)) = false :=
      Bool.eq_false_iff.mpr hany
    rw [if_neg hany]
    by_cases hk : k' = k
    · subst hk
      rw [if_pos rfl, lookupCount_append_of_absent m _ k' hany2,
        lookupCount_eq_zero m k' hany2]
      simp [lookupCount]
    · rw [if_neg hk]
      by_cases hk2 : m.any (fun p => decide (p.1 = k')) = true
      · rw [lookupCount_append_of_present m _ k' hk2]
      · have hk3 : m.any (fun p => decide (p.1 = k')) = false :=
          Bool.eq_false_iff.mpr hk2
        rw [lookupCount_append_of_absent m _ k' hk3,
          lookupCount_eq_zero m k' hk3]
        simp only [lookupCount]
        rw [if_neg (fun hh => hk hh.symm)]

/-- Folding bump over a key sequence adds each occurrence of a key to its
stored count. -/
lemma lookupCount_foldl_bump (keys : List String) :
    ∀ (m : List (String × Nat)) (k : String),
      lookupCount (keys.foldl bump m) k = lookupCount m k + keys.count k := by
  induction keys with
  | nil =>
    intro m k
    simp [List.count_nil]
  | cons a keys ih =>
    intro m k
    rw [List.foldl_cons, ih, lookupCount_bump, List.count_cons]
    by_cases h : k = a
    · subst h
      rw [if_pos rfl, if_pos (beq_self_eq_true k)]
      omega
    · rw [if_neg h,
        if_neg (by simp only [beq_iff_eq]; exact fun hh => h hh.symm)]
      omega

/-- A parser stub for the scenario: it recognizes nothing, so every
report lands in the Unknown OS and browser groups. -/
def uaParse0 : String → UAResult := fun _ => ⟨none, none, none, none⟩

/-- A scenario report with the given client ip. -/
def mkIpReport (ip : String) : Report :=
  ⟨"id", ⟨"Mozilla/5.0", ip, "script-src", "", "http://blocked.example"⟩⟩

/-- Five scenario reports, three of them sharing client ip 9.9.9.9. -/
def reports5 : List Report :=
  [mkIpReport "9.9.9.9", mkIpReport "1.1.1.1", mkIpReport "9.9.9.9",
   mkIpReport "2.2.2.2", mkIpReport "9.9.9.9"]

/-- C9: each statistics table is the frequency map of the input-sanitized
values of its field over all fetched reports — the referrer table over
only the reports whose (sanitized) referrer is nonempty, so reports with
an empty or absent referrer are excluded — sorted by descending count and
cut to the first 10 entries; a frequency map stores for every key exactly
its number of occurrences in the key sequence; and for five reports of
which three share client ip 9.9.9.9, the first entry of the top-IP table
is (9.9.9.9, 3). -/
theorem calculateStatistics_spec :
    (∀ (parse : String → UAResult) (reports : List Report),
      (calculateStatistics parse reports).topUserAgents =
        topTen (freqList
          (reports.map (fun r => sanitizeInput r.report.useragent))) ∧
      (calculateStatistics parse reports).topIPs =
        topTen (freqList
          (reports.map (fun r => sanitizeInput r.report.clientip))) ∧
      (calculateStatistics parse reports).topViolatedDirectives =
        topTen (freqList
          (reports.map (fun r => sanitizeInput r.report.violateddirective))) ∧
      (calculateStatistics parse reports).topBlockedURIs =
        topTen (freqList
          (reports.map (fun r => sanitizeInput r.report.blockeduri))) ∧
      (calculateStatistics parse reports).topOS =
        topTen (freqList (reports.map
          (fun r => osKey (parse (sanitizeInput r.report.useragent))))) ∧
      (calculateStatistics parse reports).topBrowsers =
        topTen (freqList (reports.map
          (fun r => browserKey (parse (sanitizeInput r.report.useragent))))) ∧
      (calculateStatistics parse reports).topReferrers =
        topTen (freqList ((reports.filter (fun r =>
            !(decide (sanitizeInput r.report.referrer = "")))).map
          (fun r => sanitizeInput r.report.referrer))) ∧
      List.Sorted countGe (calculateStatistics parse reports).topIPs ∧
      (calculateStatistics parse reports).topIPs.length ≤ 10) ∧
    (∀ (keys : List String) (k : String),
      lookupCount (freqList keys) k = keys.count k) ∧
    (calculateStatistics uaParse0 reports5).topIPs.head? =
      some ("9.9.9.9", 3) := by
  refine ⟨?_, ?_, rfl⟩
  · intro parse reports
    unfold calculateStatistics
    rw [foldl_statStep]
    dsimp only
    rw [foldl_refs_filter]
    simp only [freqList, List.foldl_map]
    refine ⟨rfl, rfl, rfl, rfl, rfl, rfl, rfl, ?_, ?_⟩
    · exact (List.sorted_insertionSort countGe _).sublist
        (List.take_sublist 10 _)
    · exact List.length_take_le 10 _
  · intro keys k
    have h := lookupCount_foldl_bump keys [] k
    simpa [lookupCount] using h

end CSPScout
